import Mathlib

/-!
Shallow embedding of `src/image_editor.py` (a tkinter/OpenCV image editor).

Images are modelled as dimensioned pixel grids of natural-number samples
(8-bit values 0..255 in practice, channels 0,1,2 = B,G,R as in OpenCV).
The OpenCV library calls the source makes are modelled by executable Lean
functions reproducing their documented behaviour on 8-bit 3-channel images.
The GUI classes are embedded only through the state they carry and the
state transitions their handlers perform; widgets, dialogs and the loading
overlay are presentation glue with no effect on the core state.
-/

/-- A raster image buffer: `h` rows, `w` columns, and a sample function
`pix row col channel` (channels 0,1,2 are B,G,R as in OpenCV). -/
structure Img where
  h : Nat
  w : Nat
  pix : Nat → Nat → Nat → Nat

/-- Two buffers are identical in dimensions and in every pixel sample. -/
def Img.Eqv (a b : Img) : Prop :=
  a.h = b.h ∧ a.w = b.w ∧
  ∀ y < a.h, ∀ x < a.w, ∀ c < 3, a.pix y x c = b.pix y x c

/-- OpenCV fixed-point BT.601 luminance of an 8-bit BGR pixel:
`(1868*B + 9617*G + 4899*R + 8192) >> 14` (the coefficients sum to `2^14`). -/
def luma (b g r : Nat) : Nat :=
  (1868 * b + 9617 * g + 4899 * r + 8192) / 16384

/-- Model of `cv2.cvtColor(img, cv2.COLOR_BGR2GRAY)`: the luminance map
(a single-channel image, so the channel index is ignored). -/
def cv_BGR2GRAY (img : Img) : Img :=
  ⟨img.h, img.w, fun y x _ => luma (img.pix y x 0) (img.pix y x 1) (img.pix y x 2)⟩

/-- Model of `cv2.cvtColor(img, cv2.COLOR_GRAY2BGR)`: replicate the gray
channel into all three channels. -/
def cv_GRAY2BGR (img : Img) : Img :=
  ⟨img.h, img.w, fun y x _ => img.pix y x 0⟩

/-- The three rotation codes the source passes to `cv2.rotate`
(`cv2.ROTATE_90_CLOCKWISE`, `cv2.ROTATE_180`, `cv2.ROTATE_90_COUNTERCLOCKWISE`). -/
inductive RotateCode where
  | cw90
  | r180
  | ccw90

/-- Model of `cv2.rotate`: exact rotation, no interpolation or cropping. -/
def cv_rotate (img : Img) : RotateCode → Img
  | .cw90 => ⟨img.w, img.h, fun y x c => img.pix (img.h - 1 - x) y c⟩
  | .r180 => ⟨img.h, img.w, fun y x c => img.pix (img.h - 1 - y) (img.w - 1 - x) c⟩
  | .ccw90 => ⟨img.w, img.h, fun y x c => img.pix x (img.w - 1 - y) c⟩

/-- Saturating conversion of an integer to an 8-bit sample
(OpenCV `saturate_cast<uchar>`). -/
def satU8 (z : Int) : Nat :=
  if z < 0 then 0 else if 255 < z then 255 else z.toNat

/-- OpenCV rounding (`cvRound`): round to nearest, ties to even. -/
def cvRound (q : ℚ) : Int :=
  if q - ⌊q⌋ < 1 / 2 then ⌊q⌋
  else if 1 / 2 < q - ⌊q⌋ then ⌊q⌋ + 1
  else if ⌊q⌋ % 2 = 0 then ⌊q⌋ else ⌊q⌋ + 1

/-- Model of `cv2.convertScaleAbs(src, alpha, beta)` on 8-bit input: per
channel, `dst = saturate_cast<uchar>(|alpha * src + beta|)` — the value is
scaled, its absolute value taken, then rounded and saturated. -/
def cv_convertScaleAbs (img : Img) (alpha : ℚ) (beta : Int) : Img :=
  ⟨img.h, img.w, fun y x c => satU8 (cvRound |alpha * (img.pix y x c : ℚ) + (beta : ℚ)|)⟩

/-- Model of `cv2.resize(src, (dw, dh), interpolation=cv2.INTER_AREA)`: the
output has exactly the requested dimensions; a non-positive requested
dimension is an OpenCV error (`none`). Sample values are modelled by
coordinate mapping; no claim depends on the interpolation arithmetic. -/
def cv_resize (img : Img) (dw dh : Int) : Option Img :=
  if 0 < dw ∧ 0 < dh then
    some ⟨dh.toNat, dw.toNat,
      fun y x c => img.pix (y * img.h / dh.toNat) (x * img.w / dw.toNat) c⟩
  else none

/-- The `ImageProcessor` state: the current working image and the load-time
original reference (both `None` before a successful load). -/
structure ImageProcessor where
  current_cv_image : Option Img
  original_reference : Option Img

/-- The error `ImageProcessor.load` raises when `cv2.imread` returns `None`
(the `ValueError`, i.e. the spec's `DecodeError`). -/
inductive DecodeErr where
  | decodeError
  deriving DecidableEq

/-- `ImageProcessor.load(path)`: first `self.current_cv_image = cv2.imread(path)`
(so a failed read overwrites the current image with `None` before anything is
checked), then raise on `None`, else set `original_reference` to a copy of the
freshly decoded image and return it. The decoder (`cv2.imread`) is a
parameter of the embedding. -/
def ImageProcessor.load (decoder : String → Option Img) (p : ImageProcessor)
    (path : String) : ImageProcessor × Except DecodeErr Img :=
  match decoder path with
  | none => ({ p with current_cv_image := none }, .error .decodeError)
  | some img =>
      ({ current_cv_image := some img, original_reference := some img }, .ok img)

/-- The pure grayscale transform: the source composes the two `cvtColor`
calls `BGR2GRAY` then `GRAY2BGR`. -/
def grayscale_fn (img : Img) : Img := cv_GRAY2BGR (cv_BGR2GRAY img)

/-- `ImageProcessor.grayscale()` (`none` when no image is loaded, as the
`cv2` call would fail on a `None` input). -/
def ImageProcessor.grayscale (p : ImageProcessor) : Option Img :=
  p.current_cv_image.map grayscale_fn

/-- `ImageProcessor.brightness_contrast(brightness, contrast)`:
`cv2.convertScaleAbs(current, alpha=float(contrast), beta=int(brightness))`. -/
def ImageProcessor.brightness_contrast (p : ImageProcessor) (brightness : Int)
    (contrast : ℚ) : Option Img :=
  p.current_cv_image.map (fun img => cv_convertScaleAbs img contrast brightness)

/-- `ImageProcessor.rotate(angle_code)`: `cv2.rotate(current, angle_code)`. -/
def ImageProcessor.rotate (p : ImageProcessor) (angle_code : RotateCode) : Option Img :=
  p.current_cv_image.map (fun img => cv_rotate img angle_code)

/-- `ImageProcessor.resize(scale_percent)`: dimensions are computed from
`original_reference` by Python `int(dim * scale_percent / 100)` (truncation
toward zero), then handed to `cv2.resize` with no range check. -/
def ImageProcessor.resize (p : ImageProcessor) (scale_percent : Int) : Option Img :=
  match p.original_reference with
  | none => none
  | some orig =>
      cv_resize orig (Int.tdiv ((orig.w : Int) * scale_percent) 100)
        (Int.tdiv ((orig.h : Int) * scale_percent) 100)

/-- The `ImageHistory` two-stack state. The Python lists push and pop at the
tail; the embedding keeps the most-recent snapshot first. -/
structure ImageHistory where
  undo_stack : List Img
  redo_stack : List Img

/-- `ImageHistory.reset()`: clear both stacks. -/
def ImageHistory.reset (_ : ImageHistory) : ImageHistory := ⟨[], []⟩

/-- `ImageHistory.save_state(img)`: push a copy of `img` onto the undo stack
and clear the redo stack; no-op when `img` is `None`. -/
def ImageHistory.save_state (hst : ImageHistory) (img : Option Img) : ImageHistory :=
  match img with
  | none => hst
  | some i => { undo_stack := i :: hst.undo_stack, redo_stack := [] }

/-- `ImageHistory.undo(current_img)`: returns the image to install and the
updated stacks. -/
def ImageHistory.undo (hst : ImageHistory) (current_img : Img) : Img × ImageHistory :=
  match hst.undo_stack with
  | [] => (current_img, hst)
  | top :: rest =>
      (top, { undo_stack := rest, redo_stack := current_img :: hst.redo_stack })

/-- `ImageHistory.redo(current_img)`: returns the image to install and the
updated stacks. -/
def ImageHistory.redo (hst : ImageHistory) (current_img : Img) : Img × ImageHistory :=
  match hst.redo_stack with
  | [] => (current_img, hst)
  | top :: rest =>
      (top, { undo_stack := current_img :: hst.undo_stack, redo_stack := rest })

/-- The `ImageEditorApp` state relevant to the core: processor state,
history stacks, and the last-used save path. -/
structure ImageEditorApp where
  processor : ImageProcessor
  history : ImageHistory
  current_path : Option String

/-- `ImageEditorApp.process_with_loading(operation)`: no-op (error dialog)
when no image is loaded; otherwise compute `new_img = operation()` (a `cv2`
exception there leaves all state untouched), push the pre-edit current image
onto the undo stack (clearing redo), and install the new image. -/
def ImageEditorApp.process_with_loading (a : ImageEditorApp)
    (operation : ImageProcessor → Option Img) : ImageEditorApp :=
  match a.processor.current_cv_image with
  | none => a
  | some cur =>
      match operation a.processor with
      | none => a
      | some new_img =>
          { a with
            processor := { a.processor with current_cv_image := some new_img },
            history := a.history.save_state (some cur) }

/-- `ImageEditorApp.open_image()`: a cancelled dialog (empty path) is a
no-op; otherwise call `processor.load`; on success store the path and reset
the history; on failure catch the error and show it (the processor keeps
whatever state `load` left behind). -/
def ImageEditorApp.open_image (a : ImageEditorApp) (decoder : String → Option Img)
    (path : String) : ImageEditorApp :=
  if path = "" then a
  else
    match ImageProcessor.load decoder a.processor path with
    | (p', Except.ok _) =>
        { processor := p', history := a.history.reset, current_path := some path }
    | (p', Except.error _) => { a with processor := p' }

/-- `ImageEditorApp.undo()`: no-op when no image is loaded, else delegate to
the history with the current image and install the result. -/
def ImageEditorApp.undo (a : ImageEditorApp) : ImageEditorApp :=
  match a.processor.current_cv_image with
  | none => a
  | some cur =>
      let r := a.history.undo cur
      { a with
        processor := { a.processor with current_cv_image := some r.1 },
        history := r.2 }

/-- `ImageEditorApp.redo()`: no-op when no image is loaded, else delegate to
the history with the current image and install the result. -/
def ImageEditorApp.redo (a : ImageEditorApp) : ImageEditorApp :=
  match a.processor.current_cv_image with
  | none => a
  | some cur =>
      let r := a.history.redo cur
      { a with
        processor := { a.processor with current_cv_image := some r.1 },
        history := r.2 }

/-- `ImageEditorApp.resize_popup()`: error dialog when no image is loaded;
the dialog result goes through Python `if percent:` (so a cancelled dialog
and an entered `0` are no-ops); any other integer is handed unmodified to
`process_with_loading(resize(percent))`. -/
def ImageEditorApp.resize_popup (a : ImageEditorApp) (percent : Option Int) :
    ImageEditorApp :=
  match a.processor.current_cv_image with
  | none => a
  | some _ =>
      match percent with
      | none => a
      | some sp =>
          if sp = 0 then a
          else a.process_with_loading (fun p => p.resize sp)

/-- A small concrete test image (2 rows, 3 columns). -/
def sampleImg : Img := ⟨2, 3, fun y x c => (y + 2 * x + 3 * c) % 256⟩

/-- A concrete 1-by-1 all-zero image. -/
def zeroImg : Img := ⟨1, 1, fun _ _ _ => 0⟩

/-- A concrete constant image of the given dimensions. -/
def constImg (hh ww v : Nat) : Img := ⟨hh, ww, fun _ _ _ => v⟩

/-! Helper lemmas shared across the development. -/

/-- The fixed-point luminance of an already-gray pixel is the gray value. -/
theorem luma_diag (v : Nat) : luma v v v = v := by
  unfold luma
  rw [show 1868 * v + 9617 * v + 4899 * v + 8192 = 16384 * v + 8192 by ring]
  rw [Nat.mul_add_div (by norm_num)]
  norm_num

/-- C7: applying the grayscale transform twice yields exactly the same buffer
as applying it once — the 3-channel expansion of a luminance map is a fixed
point of the grayscale transform. -/
theorem grayscale_idempotent (img : Img) :
    grayscale_fn (grayscale_fn img) = grayscale_fn img := by
  simp only [grayscale_fn, cv_GRAY2BGR, cv_BGR2GRAY]
  congr 1
  funext y x c
  exact luma_diag _

/-- C7 witness: grayscale idempotence evaluated at a concrete image. -/
theorem grayscale_idempotent_w :
    grayscale_fn (grayscale_fn sampleImg) = grayscale_fn sampleImg :=
  grayscale_idempotent sampleImg

/-- C6: four 90-degree clockwise rotations give back a buffer identical in
dimensions and in every pixel sample; a single 90-degree (or 270-degree)
rotation swaps width and height, and a 180-degree rotation preserves them. -/
theorem rotate_round_trip (img : Img) :
    Img.Eqv (cv_rotate (cv_rotate (cv_rotate (cv_rotate img .cw90) .cw90) .cw90) .cw90) img ∧
    (cv_rotate img RotateCode.cw90).h = img.w ∧
    (cv_rotate img RotateCode.cw90).w = img.h ∧
    (cv_rotate img RotateCode.ccw90).h = img.w ∧
    (cv_rotate img RotateCode.ccw90).w = img.h ∧
    (cv_rotate img RotateCode.r180).h = img.h ∧
    (cv_rotate img RotateCode.r180).w = img.w := by
  refine ⟨⟨rfl, rfl, ?_⟩, rfl, rfl, rfl, rfl, rfl, rfl⟩
  intro y hy x hx c _
  simp only [cv_rotate] at hy hx ⊢
  have h1 : img.h - 1 - (img.h - 1 - y) = y := by omega
  have h2 : img.w - 1 - (img.w - 1 - x) = x := by omega
  rw [h1, h2]

/-- C6 witness: the rotation properties evaluated at a concrete image. -/
theorem rotate_round_trip_w :
    Img.Eqv
      (cv_rotate (cv_rotate (cv_rotate (cv_rotate sampleImg .cw90) .cw90) .cw90) .cw90)
      sampleImg ∧
    (cv_rotate sampleImg RotateCode.cw90).h = sampleImg.w ∧
    (cv_rotate sampleImg RotateCode.cw90).w = sampleImg.h ∧
    (cv_rotate sampleImg RotateCode.ccw90).h = sampleImg.w ∧
    (cv_rotate sampleImg RotateCode.ccw90).w = sampleImg.h ∧
    (cv_rotate sampleImg RotateCode.r180).h = sampleImg.h ∧
    (cv_rotate sampleImg RotateCode.r180).w = sampleImg.w :=
  rotate_round_trip sampleImg

/-- Rounding an integer-valued rational returns that integer. -/
theorem cvRound_intCast (n : Int) : cvRound (n : ℚ) = n := by
  unfold cvRound
  rw [Int.floor_intCast]
  norm_num

/-- Rounding a natural-valued rational returns that natural number. -/
theorem cvRound_natCast (n : Nat) : cvRound (n : ℚ) = (n : Int) := by
  rw [show ((n : ℚ)) = (((n : Int) : Int) : ℚ) by push_cast; ring]
  exact cvRound_intCast n

/-- Saturating a nonnegative integer clamps it at 255. -/
theorem satU8_natCast (n : Nat) : satU8 (n : Int) = min n 255 := by
  unfold satU8
  split_ifs with h1 h2 <;> omega

/-- Modelled from the spec: the claimed per-sample brightness/contrast
formula `out = clamp(contrast*in + brightness, 0, 255)` (negative
intermediate values clamped to 0). -/
def spec_clamp_formula (contrast : ℚ) (brightness : Int) (v : Nat) : Nat :=
  satU8 (cvRound (contrast * (v : ℚ) + (brightness : ℚ)))

/-- C2 counterexample: at a zero pixel with contrast 1.0 and brightness -100
(both within the claimed ranges), the code's `cv2.convertScaleAbs` produces
`|1*0 - 100| = 100`, while the claimed clamp formula produces 0 — negative
intermediate values are reflected by the absolute value, not clamped. -/
theorem brightness_contrast_cx :
    (cv_convertScaleAbs zeroImg 1 (-100)).pix 0 0 0 = 100 ∧
    spec_clamp_formula 1 (-100) 0 = 0 ∧
    (cv_convertScaleAbs zeroImg 1 (-100)).pix 0 0 0 ≠ spec_clamp_formula 1 (-100) 0 := by
  have hcode : (cv_convertScaleAbs zeroImg 1 (-100)).pix 0 0 0 = 100 := by
    simp only [cv_convertScaleAbs, zeroImg]
    rw [show |(1 : ℚ) * ((0 : Nat) : ℚ) + ((-100 : Int) : ℚ)| = (((100 : Nat) : Int) : ℚ) by
      push_cast; rw [abs_of_nonpos] <;> norm_num]
    rw [cvRound_intCast, satU8_natCast]
    decide
  have hspec : spec_clamp_formula 1 (-100) 0 = 0 := by
    simp only [spec_clamp_formula]
    rw [show (1 : ℚ) * ((0 : Nat) : ℚ) + ((-100 : Int) : ℚ) = ((-100 : Int) : ℚ) by
      push_cast; ring]
    rw [cvRound_intCast]
    rfl
  exact ⟨hcode, hspec, by rw [hcode, hspec]; norm_num⟩

/-- C2 (amended): `brightness_contrast` maps each sample independently per
channel to `out = saturate(round(|contrast*in + brightness|))` — absolute
value, not clamp-to-0, on negative intermediates; in particular with
contrast 1.0 and brightness +50 every channel becomes `min(in + 50, 255)`
(an exact increase by 50, saturating at 255). -/
theorem brightness_contrast_amended (p : ImageProcessor) (img : Img)
    (b : Int) (c : ℚ) (hcur : p.current_cv_image = some img)
    (hb1 : -100 ≤ b) (hb2 : b ≤ 100) (hc1 : 1 ≤ c) (hc2 : c ≤ 3) :
    p.brightness_contrast b c = some (cv_convertScaleAbs img c b) ∧
    (∀ y x ch, (cv_convertScaleAbs img c b).pix y x ch
        = satU8 (cvRound |c * ((img.pix y x ch : Nat) : ℚ) + (b : ℚ)|)) ∧
    (c = 1 → b = 50 →
      ∀ y x ch, (cv_convertScaleAbs img c b).pix y x ch
          = min (img.pix y x ch + 50) 255) := by
  refine ⟨by simp [ImageProcessor.brightness_contrast, hcur], fun y x ch => rfl, ?_⟩
  rintro rfl rfl y x ch
  simp only [cv_convertScaleAbs]
  rw [show |(1 : ℚ) * ((img.pix y x ch : Nat) : ℚ) + ((50 : Int) : ℚ)|
        = ((img.pix y x ch + 50 : Nat) : ℚ) by
    push_cast
    rw [abs_of_nonneg] <;> [ring; positivity]]
  rw [cvRound_natCast, satU8_natCast]

/-- C2 witness: the amended brightness/contrast behaviour at a concrete
processor state, brightness +50 and contrast 1.0. -/
theorem brightness_contrast_amended_w :
    (ImageProcessor.mk (some sampleImg) (some sampleImg)).brightness_contrast 50 1
        = some (cv_convertScaleAbs sampleImg 1 50) ∧
    (∀ y x ch, (cv_convertScaleAbs sampleImg 1 50).pix y x ch
        = satU8 (cvRound |1 * ((sampleImg.pix y x ch : Nat) : ℚ) + ((50 : Int) : ℚ)|)) ∧
    ((1 : ℚ) = 1 → (50 : Int) = 50 →
      ∀ y x ch, (cv_convertScaleAbs sampleImg 1 50).pix y x ch
          = min (sampleImg.pix y x ch + 50) 255) :=
  brightness_contrast_amended (ImageProcessor.mk (some sampleImg) (some sampleImg))
    sampleImg 50 1 rfl (by decide) (by decide) (by norm_num) (by norm_num)

/-- C3: after every successful apply from the Loaded state, the top of the
undo stack is the pre-edit current buffer (never the post-edit one), the
redo stack is empty, the current buffer is the transform's result, and a
subsequent `redo()` is therefore a no-op — in particular after undo, apply,
redo the redo does nothing. -/
theorem apply_history_contract (a : ImageEditorApp)
    (op : ImageProcessor → Option Img) (cur new_img : Img)
    (hcur : a.processor.current_cv_image = some cur)
    (hop : op a.processor = some new_img) :
    (a.process_with_loading op).history.undo_stack = cur :: a.history.undo_stack ∧
    (a.process_with_loading op).history.redo_stack = [] ∧
    (a.process_with_loading op).processor.current_cv_image = some new_img ∧
    (a.process_with_loading op).redo = a.process_with_loading op := by
  refine ⟨?_, ?_, ?_, ?_⟩ <;>
    simp [ImageEditorApp.process_with_loading, hcur, hop, ImageHistory.save_state,
      ImageEditorApp.redo, ImageHistory.redo]

/-- C3 witness: the apply contract evaluated for a concrete grayscale apply. -/
theorem apply_history_contract_w :
    ((ImageEditorApp.mk ⟨some zeroImg, some zeroImg⟩ ⟨[sampleImg], [sampleImg]⟩
        none).process_with_loading ImageProcessor.grayscale).history.undo_stack
      = zeroImg :: [sampleImg] ∧
    ((ImageEditorApp.mk ⟨some zeroImg, some zeroImg⟩ ⟨[sampleImg], [sampleImg]⟩
        none).process_with_loading ImageProcessor.grayscale).history.redo_stack = [] ∧
    ((ImageEditorApp.mk ⟨some zeroImg, some zeroImg⟩ ⟨[sampleImg], [sampleImg]⟩
        none).process_with_loading
        ImageProcessor.grayscale).processor.current_cv_image
      = some (grayscale_fn zeroImg) ∧
    ((ImageEditorApp.mk ⟨some zeroImg, some zeroImg⟩ ⟨[sampleImg], [sampleImg]⟩
        none).process_with_loading ImageProcessor.grayscale).redo
      = (ImageEditorApp.mk ⟨some zeroImg, some zeroImg⟩ ⟨[sampleImg], [sampleImg]⟩
        none).process_with_loading ImageProcessor.grayscale :=
  apply_history_contract
    (ImageEditorApp.mk ⟨some zeroImg, some zeroImg⟩ ⟨[sampleImg], [sampleImg]⟩ none)
    ImageProcessor.grayscale zeroImg (grayscale_fn zeroImg) rfl rfl

/-- One undo followed by one redo restores a session state whose undo stack
is non-empty, in constructor form. -/
theorem redo_undo_cancel (orig : Option Img) (cp : Option String) (cur t : Img)
    (rest rs : List Img) :
    ImageEditorApp.redo
        (ImageEditorApp.undo ⟨⟨some cur, orig⟩, ⟨t :: rest, rs⟩, cp⟩)
      = ⟨⟨some cur, orig⟩, ⟨t :: rest, rs⟩, cp⟩ := rfl

/-- C5: from any session state with a loaded image, N undos followed by N
redos (N at most the undo-stack depth, no intervening apply or load)
restore the current buffer and both stacks bit-identically. -/
theorem undo_redo_inverse :
    ∀ (N : Nat) (a : ImageEditorApp) (cur : Img),
      a.processor.current_cv_image = some cur →
      N ≤ a.history.undo_stack.length →
      ImageEditorApp.redo^[N] (ImageEditorApp.undo^[N] a) = a := by
  intro N
  induction N with
  | zero => intro a cur _ _; rfl
  | succ n ih =>
      intro a cur h1 h2
      obtain ⟨⟨ci, orig⟩, ⟨us, rs⟩, cp⟩ := a
      have hci : ci = some cur := h1
      subst hci
      have hlen : n + 1 ≤ us.length := h2
      cases us with
      | nil => simp at hlen
      | cons t rest =>
          rw [Function.iterate_succ_apply' ImageEditorApp.redo n _,
            Function.iterate_succ_apply ImageEditorApp.undo n _]
          have hstep : ImageEditorApp.undo ⟨⟨some cur, orig⟩, ⟨t :: rest, rs⟩, cp⟩
              = ⟨⟨some t, orig⟩, ⟨rest, cur :: rs⟩, cp⟩ := rfl
          rw [hstep]
          have hlen' : n ≤ rest.length := by
            simp only [List.length_cons] at hlen
            omega
          rw [ih ⟨⟨some t, orig⟩, ⟨rest, cur :: rs⟩, cp⟩ t rfl hlen']
          rfl

/-- C5 witness: one undo then one redo on a concrete session state. -/
theorem undo_redo_inverse_w :
    ImageEditorApp.redo^[1]
        (ImageEditorApp.undo^[1]
          (ImageEditorApp.mk ⟨some sampleImg, some sampleImg⟩ ⟨[zeroImg], []⟩ none))
      = ImageEditorApp.mk ⟨some sampleImg, some sampleImg⟩ ⟨[zeroImg], []⟩ none :=
  undo_redo_inverse 1
    (ImageEditorApp.mk ⟨some sampleImg, some sampleImg⟩ ⟨[zeroImg], []⟩ none)
    sampleImg rfl (by decide)

/-- C8: undo on an empty undo stack and redo on an empty redo stack return
the current buffer unchanged and leave both stacks unchanged, succeeding
without an error — stated at the history level and at the app level. -/
theorem empty_stack_noop (hst : ImageHistory) (cur : Img) (a : ImageEditorApp) :
    (hst.undo_stack = [] → hst.undo cur = (cur, hst)) ∧
    (hst.redo_stack = [] → hst.redo cur = (cur, hst)) ∧
    (a.processor.current_cv_image = some cur → a.history.undo_stack = [] →
      a.undo = a) ∧
    (a.processor.current_cv_image = some cur → a.history.redo_stack = [] →
      a.redo = a) := by
  obtain ⟨us, rs⟩ := hst
  obtain ⟨⟨ci, orig⟩, ⟨us2, rs2⟩, cp⟩ := a
  refine ⟨?_, ?_, ?_, ?_⟩
  · intro h
    have hus : us = [] := h
    subst hus
    rfl
  · intro h
    have hrs : rs = [] := h
    subst hrs
    rfl
  · intro h1 h2
    have hci : ci = some cur := h1
    have hus : us2 = [] := h2
    subst hci
    subst hus
    rfl
  · intro h1 h2
    have hci : ci = some cur := h1
    have hrs : rs2 = [] := h2
    subst hci
    subst hrs
    rfl

/-- C8 witness: empty-stack no-ops on a freshly loaded concrete state. -/
theorem empty_stack_noop_w :
    ImageHistory.undo ⟨[], []⟩ sampleImg = (sampleImg, ⟨[], []⟩) ∧
    ImageHistory.redo ⟨[], []⟩ sampleImg = (sampleImg, ⟨[], []⟩) ∧
    ImageEditorApp.undo ⟨⟨some sampleImg, some sampleImg⟩, ⟨[], []⟩, none⟩
      = ⟨⟨some sampleImg, some sampleImg⟩, ⟨[], []⟩, none⟩ ∧
    ImageEditorApp.redo ⟨⟨some sampleImg, some sampleImg⟩, ⟨[], []⟩, none⟩
      = ⟨⟨some sampleImg, some sampleImg⟩, ⟨[], []⟩, none⟩ := by
  obtain ⟨h1, h2, h3, h4⟩ :=
    empty_stack_noop ⟨[], []⟩ sampleImg
      ⟨⟨some sampleImg, some sampleImg⟩, ⟨[], []⟩, none⟩
  exact ⟨h1 rfl, h2 rfl, h3 rfl rfl, h4 rfl rfl⟩

/-- C9: the original (load-time) buffer is replaced only by a successful
load — transform application, undo, and redo leave it unchanged in every
case — while each successful one of these operations installs its result as
the new current buffer. -/
theorem original_only_load (a : ImageEditorApp) (op : ImageProcessor → Option Img)
    (decoder : String → Option Img) (path : String) (img cur new_img : Img) :
    (a.process_with_loading op).processor.original_reference
        = a.processor.original_reference ∧
    a.undo.processor.original_reference = a.processor.original_reference ∧
    a.redo.processor.original_reference = a.processor.original_reference ∧
    (path ≠ "" → decoder path = some img →
      (a.open_image decoder path).processor.original_reference = some img ∧
      (a.open_image decoder path).processor.current_cv_image = some img) ∧
    (a.processor.current_cv_image = some cur → op a.processor = some new_img →
      (a.process_with_loading op).processor.current_cv_image = some new_img) ∧
    (a.processor.current_cv_image = some cur →
      a.undo.processor.current_cv_image = some (a.history.undo cur).1 ∧
      a.redo.processor.current_cv_image = some (a.history.redo cur).1) := by
  refine ⟨?_, ?_, ?_, ?_, ?_, ?_⟩
  · rcases hc : a.processor.current_cv_image with _ | c
    · simp [ImageEditorApp.process_with_loading, hc]
    · rcases hop2 : op a.processor with _ | n <;>
        simp [ImageEditorApp.process_with_loading, hc, hop2]
  · rcases hc : a.processor.current_cv_image with _ | c <;>
      simp [ImageEditorApp.undo, hc]
  · rcases hc : a.processor.current_cv_image with _ | c <;>
      simp [ImageEditorApp.redo, hc]
  · intro hp hd
    constructor <;>
      simp [ImageEditorApp.open_image, ImageProcessor.load, hp, hd]
  · intro hcur hop
    simp [ImageEditorApp.process_with_loading, hcur, hop]
  · intro hcur
    constructor <;> simp [ImageEditorApp.undo, ImageEditorApp.redo, hcur]

/-- C9 witness: the frame and replacement facts at a concrete state, a
grayscale apply, and a successful load. -/
theorem original_only_load_w :
    ((ImageEditorApp.mk ⟨some zeroImg, some zeroImg⟩ ⟨[], []⟩
          none).process_with_loading
        ImageProcessor.grayscale).processor.original_reference
      = (ImageEditorApp.mk ⟨some zeroImg, some zeroImg⟩ ⟨[], []⟩
          none).processor.original_reference ∧
    ((ImageEditorApp.mk ⟨some zeroImg, some zeroImg⟩ ⟨[], []⟩
          none).open_image (fun _ => some sampleImg)
        "a.png").processor.original_reference = some sampleImg ∧
    ((ImageEditorApp.mk ⟨some zeroImg, some zeroImg⟩ ⟨[], []⟩
          none).process_with_loading
        ImageProcessor.grayscale).processor.current_cv_image
      = some (grayscale_fn zeroImg) ∧
    (ImageEditorApp.mk ⟨some zeroImg, some zeroImg⟩ ⟨[], []⟩
          none).undo.processor.current_cv_image
      = some ((ImageEditorApp.mk ⟨some zeroImg, some zeroImg⟩ ⟨[], []⟩
          none).history.undo zeroImg).1 := by
  obtain ⟨h1, h2, h3, h4, h5, h6⟩ :=
    original_only_load
      (ImageEditorApp.mk ⟨some zeroImg, some zeroImg⟩ ⟨[], []⟩ none)
      ImageProcessor.grayscale (fun _ => some sampleImg) "a.png" sampleImg zeroImg
      (grayscale_fn zeroImg)
  exact ⟨h1, (h4 (by decide) rfl).1, h5 rfl rfl, (h6 rfl).1⟩

/-- C1 counterexample: a session with an image loaded opens an undecodable
file; the original buffer, stacks and path stay put, but the current buffer
is overwritten with the unset sentinel by `self.current_cv_image =
cv2.imread(path)` before the decode check — the prior current buffer is
lost, contradicting "prior state untouched". -/
theorem load_failure_cx :
    ((ImageEditorApp.mk ⟨some zeroImg, some zeroImg⟩ ⟨[zeroImg], []⟩
          (some "old.png")).open_image (fun _ => none)
        "bad.png").processor.current_cv_image = none ∧
    (ImageEditorApp.mk ⟨some zeroImg, some zeroImg⟩ ⟨[zeroImg], []⟩
        (some "old.png")).processor.current_cv_image = some zeroImg ∧
    ((ImageEditorApp.mk ⟨some zeroImg, some zeroImg⟩ ⟨[zeroImg], []⟩
          (some "old.png")).open_image (fun _ => none)
        "bad.png").processor.current_cv_image
      ≠ (ImageEditorApp.mk ⟨some zeroImg, some zeroImg⟩ ⟨[zeroImg], []⟩
        (some "old.png")).processor.current_cv_image := by
  refine ⟨?_, rfl, ?_⟩
  · simp [ImageEditorApp.open_image, ImageProcessor.load]
  · simp [ImageEditorApp.open_image, ImageProcessor.load]

/-- C1 (amended): when the decoder fails, `load` raises `DecodeError` (which
`open_image` catches and surfaces), and the original buffer, the history
stacks and the last-used save path are unchanged — but the current buffer is
overwritten with the unset (`None`) sentinel rather than staying in its
prior state. -/
theorem load_failure_amended (a : ImageEditorApp) (decoder : String → Option Img)
    (path : String) (hp : path ≠ "") (hd : decoder path = none) :
    (ImageProcessor.load decoder a.processor path).2
        = Except.error DecodeErr.decodeError ∧
    (a.open_image decoder path).processor.original_reference
        = a.processor.original_reference ∧
    (a.open_image decoder path).history = a.history ∧
    (a.open_image decoder path).current_path = a.current_path ∧
    (a.open_image decoder path).processor.current_cv_image = none := by
  refine ⟨?_, ?_, ?_, ?_, ?_⟩ <;>
    simp [ImageEditorApp.open_image, ImageProcessor.load, hp, hd]

/-- C1 witness: the amended load-failure behaviour at a concrete session. -/
theorem load_failure_amended_w :
    (ImageProcessor.load (fun _ => none)
          (ImageEditorApp.mk ⟨some zeroImg, some zeroImg⟩ ⟨[zeroImg], []⟩
            (some "old.png")).processor "bad.png").2
        = Except.error DecodeErr.decodeError ∧
    ((ImageEditorApp.mk ⟨some zeroImg, some zeroImg⟩ ⟨[zeroImg], []⟩
          (some "old.png")).open_image (fun _ => none)
        "bad.png").processor.original_reference
        = (ImageEditorApp.mk ⟨some zeroImg, some zeroImg⟩ ⟨[zeroImg], []⟩
          (some "old.png")).processor.original_reference ∧
    ((ImageEditorApp.mk ⟨some zeroImg, some zeroImg⟩ ⟨[zeroImg], []⟩
          (some "old.png")).open_image (fun _ => none) "bad.png").history
        = (ImageEditorApp.mk ⟨some zeroImg, some zeroImg⟩ ⟨[zeroImg], []⟩
          (some "old.png")).history ∧
    ((ImageEditorApp.mk ⟨some zeroImg, some zeroImg⟩ ⟨[zeroImg], []⟩
          (some "old.png")).open_image (fun _ => none) "bad.png").current_path
        = (ImageEditorApp.mk ⟨some zeroImg, some zeroImg⟩ ⟨[zeroImg], []⟩
          (some "old.png")).current_path ∧
    ((ImageEditorApp.mk ⟨some zeroImg, some zeroImg⟩ ⟨[zeroImg], []⟩
          (some "old.png")).open_image (fun _ => none)
        "bad.png").processor.current_cv_image = none :=
  load_failure_amended
    (ImageEditorApp.mk ⟨some zeroImg, some zeroImg⟩ ⟨[zeroImg], []⟩ (some "old.png"))
    (fun _ => none) "bad.png" (by decide) rfl

/-- Truncating division of cast naturals agrees with natural division. -/
theorem tdiv_natCast (m k : Nat) :
    Int.tdiv ((m : Int)) ((k : Int)) = ((m / k : Nat) : Int) := rfl

/-- Python `int(dim * percent / 100)` on nonnegative operands is the natural
floor division. -/
theorem tdiv_cast_mul (m s : Nat) :
    Int.tdiv ((m : Int) * (s : Int)) 100 = ((m * s / 100 : Nat) : Int) := rfl

/-- C4 counterexample: a loaded 1-by-1 original resized to 50 percent (inside
the claimed [50, 200] range) does not produce a buffer of the claimed
dimensions floor(1*50/100) = 0 by 0 — the requested dimension 0 makes the
resampler fail, so no buffer at all is produced. -/
theorem resize_cx :
    ImageProcessor.resize ⟨some (constImg 1 1 5), some (constImg 1 1 5)⟩ 50
      = none := rfl

/-- C4 (amended): for a loaded original and a percent in [50, 200] whose
computed dimensions floor(w*percent/100) and floor(h*percent/100) are both
positive, resize produces a buffer of exactly those dimensions, computed
from the load-time original buffer and independent of the current buffer;
consecutive resizes therefore do not compound — a 200x100 original resized
to 150 percent and then 75 percent yields a 150x75 result. (When a computed
dimension is 0, as for a 1-pixel-wide original at 50 percent, the resampler
rejects it instead.) -/
theorem resize_amended :
    (∀ (p : ImageProcessor) (orig : Img) (sp : Nat),
      p.original_reference = some orig →
      50 ≤ sp → sp ≤ 200 →
      0 < orig.w * sp / 100 → 0 < orig.h * sp / 100 →
      ∃ res : Img,
        ImageProcessor.resize p (sp : Int) = some res ∧
        res.w = orig.w * sp / 100 ∧
        res.h = orig.h * sp / 100 ∧
        ∀ ci : Option Img,
          ImageProcessor.resize ⟨ci, p.original_reference⟩ (sp : Int)
            = ImageProcessor.resize p (sp : Int)) ∧
    (Option.map Img.w
        (((ImageEditorApp.mk ⟨some (constImg 100 200 3), some (constImg 100 200 3)⟩
              ⟨[], []⟩ none).process_with_loading
            (fun p => p.resize 150)).process_with_loading
          (fun p => p.resize 75)).processor.current_cv_image = some 150 ∧
     Option.map Img.h
        (((ImageEditorApp.mk ⟨some (constImg 100 200 3), some (constImg 100 200 3)⟩
              ⟨[], []⟩ none).process_with_loading
            (fun p => p.resize 150)).process_with_loading
          (fun p => p.resize 75)).processor.current_cv_image = some 75) := by
  constructor
  · intro p orig sp horig h50 h200 hw hh
    obtain ⟨ci, po⟩ := p
    have hpo : po = some orig := horig
    subst hpo
    refine ⟨⟨orig.h * sp / 100, orig.w * sp / 100,
      fun y x c => orig.pix (y * orig.h / (orig.h * sp / 100))
        (x * orig.w / (orig.w * sp / 100)) c⟩, ?_, rfl, rfl, fun ci2 => rfl⟩
    simp only [ImageProcessor.resize, tdiv_cast_mul, cv_resize]
    rw [if_pos ⟨Int.natCast_pos.mpr hw, Int.natCast_pos.mpr hh⟩]
    rfl
  · constructor <;> rfl

/-- C4 witness: the amended resize dimension contract at a concrete 200-wide,
100-high original resized to 150 percent. -/
theorem resize_amended_w :
    ∃ res : Img,
      ImageProcessor.resize ⟨none, some (constImg 100 200 3)⟩ ((150 : Nat) : Int)
          = some res ∧
      res.w = (constImg 100 200 3).w * 150 / 100 ∧
      res.h = (constImg 100 200 3).h * 150 / 100 ∧
      ∀ ci : Option Img,
        ImageProcessor.resize
            ⟨ci, (ImageProcessor.mk none (some (constImg 100 200 3))).original_reference⟩
            ((150 : Nat) : Int)
          = ImageProcessor.resize ⟨none, some (constImg 100 200 3)⟩ ((150 : Nat) : Int) :=
  resize_amended.1 ⟨none, some (constImg 100 200 3)⟩ (constImg 100 200 3) 150
    rfl (by decide) (by decide) (by decide) (by decide)

/-- C10: the resize path enforces no percentage range — for every percent the
processor computes the truncated dimensions int(w*percent/100) and
int(h*percent/100) from the original buffer and hands them straight to the
resampler; the popup passes every nonzero entered integer through unchanged;
a 300 percent request on a 200x100 original succeeds with 600x300, and a
negative percent sends negative requested dimensions into the resampler,
which rejects them there. -/
theorem resize_no_range_check :
    (∀ (p : ImageProcessor) (orig : Img) (sp : Int),
      p.original_reference = some orig →
      ImageProcessor.resize p sp
        = cv_resize orig (Int.tdiv ((orig.w : Int) * sp) 100)
            (Int.tdiv ((orig.h : Int) * sp) 100)) ∧
    (∀ (a : ImageEditorApp) (sp : Int), sp ≠ 0 →
      a.resize_popup (some sp)
        = a.process_with_loading (fun p => p.resize sp)) ∧
    (Option.map Img.w
        (ImageProcessor.resize ⟨none, some (constImg 100 200 3)⟩ 300) = some 600 ∧
     Option.map Img.h
        (ImageProcessor.resize ⟨none, some (constImg 100 200 3)⟩ 300) = some 300) ∧
    (Int.tdiv ((200 : Int) * (-50)) 100 = -100 ∧
     ImageProcessor.resize ⟨none, some (constImg 100 200 3)⟩ (-50)
        = cv_resize (constImg 100 200 3) (-100) (-50) ∧
     cv_resize (constImg 100 200 3) (-100) (-50) = none) := by
  refine ⟨?_, ?_, ⟨rfl, rfl⟩, by decide, rfl, rfl⟩
  · intro p orig sp horig
    obtain ⟨ci, po⟩ := p
    have hpo : po = some orig := horig
    subst hpo
    rfl
  · intro a sp hsp
    rcases hc : a.processor.current_cv_image with _ | c
    · simp [ImageEditorApp.resize_popup, ImageEditorApp.process_with_loading, hc]
    · simp [ImageEditorApp.resize_popup, hc, hsp]

/-- C10 witness: the pass-through behaviour at a concrete state and percent. -/
theorem resize_no_range_check_w :
    ImageProcessor.resize ⟨none, some (constImg 100 200 3)⟩ 300
        = cv_resize (constImg 100 200 3)
            (Int.tdiv (((constImg 100 200 3).w : Int) * 300) 100)
            (Int.tdiv (((constImg 100 200 3).h : Int) * 300) 100) ∧
    (ImageEditorApp.mk ⟨some zeroImg, some (constImg 100 200 3)⟩ ⟨[], []⟩
          none).resize_popup (some 300)
        = (ImageEditorApp.mk ⟨some zeroImg, some (constImg 100 200 3)⟩ ⟨[], []⟩
          none).process_with_loading (fun p => p.resize 300) :=
  ⟨resize_no_range_check.1 ⟨none, some (constImg 100 200 3)⟩ (constImg 100 200 3)
      300 rfl,
    resize_no_range_check.2.1
      (ImageEditorApp.mk ⟨some zeroImg, some (constImg 100 200 3)⟩ ⟨[], []⟩ none)
      300 (by decide)⟩
